import Mathlib

/-!
Verification development for the clippyboard clipboard-history daemon.

The definitions below are a shallow embedding of the Rust sources:

* `src/src/daemon.rs` — the daemon: shared state, the capture path
  (`do_read_clipboard_into_history`), the selection handler, the IPC
  worker (`handle_peer`, `handle_copy`) and startup.
* `src/src/lib.rs` / `src/clippyboard-shared/src/lib.rs` — the
  `HistoryItem` record, its serde impls and the wire opcodes.
* `src/src/display.rs` — the picker, which deserializes the READ
  response.

Machine integers become `Nat` with explicit `% 2^64` where u64 overflow
matters; byte buffers become `List Nat` (each element a u8 value);
`HashSet<String>` mime sets become `List String` queried by membership;
fallible operations return `Option`.
-/

/-- Source: `const MAX_ENTRY_SIZE: u64 = 50_000_000;` (src/src/lib.rs). -/
def MAX_ENTRY_SIZE : Nat := 50000000

/-- Source: `const MAX_HISTORY_BYTE_SIZE: usize = 100_000_000;` (src/src/lib.rs). -/
def MAX_HISTORY_BYTE_SIZE : Nat := 100000000

/-- Value of `std::mem::size_of::<HistoryItem>()` on a 64-bit target:
`id: u64` (8) + `mime: String` (24) + `data: Arc<[u8]>` (16, fat pointer)
+ `created_time: u64` (8) = 56.  Used by the eviction accounting in
`do_read_clipboard_into_history`. -/
def HISTORY_ITEM_OVERHEAD : Nat := 56

/-- Modulus of Rust's `u64` arithmetic (`AtomicU64::fetch_add` wraps). -/
def U64_MOD : Nat := 2 ^ 64

/-- Source: `struct HistoryItem { id: u64, mime: String, data: Arc<[u8]>,
created_time: u64 }` (src/src/lib.rs; `struct Entry` in src/src/main.rs has
the same fields with `data: Vec<u8>`).  `data` is the raw byte sequence. -/
structure HistoryItem where
  id : Nat
  mime : String
  data : List Nat
  created_time : Nat
deriving DecidableEq, Repr

/-- Per-entry cost used by the eviction loop:
`item.data.len() + std::mem::size_of::<HistoryItem>()` (daemon.rs line 600). -/
def itemSize (it : HistoryItem) : Nat := it.data.length + HISTORY_ITEM_OVERHEAD

/-- Total eviction-accounting size of a store. -/
def totalSize (items : List HistoryItem) : Nat := (items.map itemSize).sum

/-- Source: the store-relevant fields of `struct SharedState` (daemon.rs
lines 42-53): the `next_item_id` and `last_copied_item_id` atomics and the
`items: Mutex<Vec<HistoryItem>>` history.  The Wayland proxies, queue
handle and notification pipe carry no store state and are omitted. -/
structure SharedState where
  next_item_id : Nat
  last_copied_item_id : Nat
  items : List HistoryItem
deriving DecidableEq, Repr

/-- Source: the seed entry pushed in `daemon::main` (daemon.rs lines
369-374): id 3548235782, mime "text/plain", data b"meow", created_time 0.
b"meow" = [109, 101, 111, 119]. -/
def seedItem : HistoryItem :=
  { id := 3548235782, mime := "text/plain", data := [109, 101, 111, 119], created_time := 0 }

/-- Source: `daemon::main` shared-state construction (daemon.rs lines
357-374): `next_item_id: AtomicU64::new(0)`,
`last_copied_item_id: AtomicU64::new(u64::MAX)`, items initially empty and
then the seed entry is pushed. -/
def initialState : SharedState :=
  { next_item_id := 0, last_copied_item_id := U64_MOD - 1, items := [seedItem] }

/-- Loop body of the eviction scan (daemon.rs lines 599-603): add the
current item's accounted size to the running total and overwrite the
cutoff with the current index whenever the total exceeds the bound. -/
def evictStep (acc : Nat × Option Nat) (p : Nat × HistoryItem) : Nat × Option Nat :=
  let total := acc.1 + itemSize p.2
  (total, if total > MAX_HISTORY_BYTE_SIZE then some p.1 else acc.2)

/-- Source: the eviction scan in `do_read_clipboard_into_history`
(daemon.rs lines 597-604):

    let mut running_total = 0;
    let mut cutoff = None;
    for (idx, item) in items.iter().enumerate().rev() {
        running_total += item.data.len() + size_of::<HistoryItem>();
        if running_total > MAX_HISTORY_BYTE_SIZE { cutoff = Some(idx); }
    }

Returns the final `(running_total, cutoff)` pair. -/
def evictScan (items : List HistoryItem) : Nat × Option Nat :=
  (items.enum.reverse).foldl evictStep (0, none)

/-- Source: `items.splice(0..=cutoff, [])` when a cutoff exists (daemon.rs
lines 605-612): drop entries `[0..=c]` from the front. -/
def spliceFront (items : List HistoryItem) (cutoff : Option Nat) : List HistoryItem :=
  match cutoff with
  | none => items
  | some c => items.drop (c + 1)

/-- Push at the tail and run the eviction scan — the storing branch of
`do_read_clipboard_into_history` (daemon.rs lines 596-612). -/
def appendEvict (items : List HistoryItem) (e : HistoryItem) : List HistoryItem :=
  let pushed := items ++ [e]
  spliceFront pushed (evictScan pushed).2

/-- Source: the tail-dedup test of `do_read_clipboard_into_history`
(daemon.rs lines 579-582): `items.last().is_some_and(|last| last.mime ==
new_entry.mime && last.data == new_entry.data)`. -/
def tailDuplicate (items : List HistoryItem) (mime : String) (data : List Nat) : Bool :=
  match items.getLast? with
  | some last => last.mime == mime && last.data == data
  | none => false

/-- Source: the self-copy test of `do_read_clipboard_into_history`
(daemon.rs lines 586-592): find the item whose id equals
`last_copied_item_id` and compare its mime and data with the new entry. -/
def selfCopyDuplicate (items : List HistoryItem) (lastCopied : Nat) (mime : String)
    (data : List Nat) : Bool :=
  match items.find? (fun item => item.id == lastCopied) with
  | some item => item.mime == mime && item.data == data
  | none => false

/-- Source: `do_read_clipboard_into_history` (daemon.rs lines 559-617).
`pipeData` is the byte stream offered on the pipe; the
`BufReader::take(MAX_ENTRY_SIZE)` cap becomes `List.take`.  The id is the
value of `next_item_id.fetch_add(1)` — the old counter value, the counter
advancing (with u64 wrap) *before* the dedup checks.  The first early
return is the tail-dedup check, the second the self-copy check against
`last_copied_item_id`; on both the store is left untouched.  Otherwise the
entry is pushed and the eviction scan runs. -/
def do_read_clipboard_into_history (s : SharedState) (time : Nat) (mime : String)
    (pipeData : List Nat) : SharedState :=
  let data := pipeData.take MAX_ENTRY_SIZE
  let new_entry : HistoryItem :=
    { id := s.next_item_id, mime := mime, data := data, created_time := time }
  let s' : SharedState := { s with next_item_id := (s.next_item_id + 1) % U64_MOD }
  if tailDuplicate s'.items new_entry.mime new_entry.data then
    s'
  else if selfCopyDuplicate s'.items s'.last_copied_item_id new_entry.mime new_entry.data then
    s'
  else
    { s' with items := appendEvict s'.items new_entry }

/-- Source: the mime preference in the `Selection` arm (daemon.rs lines
224-226): `["text/plain", "image/png"].iter().find(|mime|
offer.mime_types.contains(**mime))`. -/
def preference : List String := ["text/plain", "image/png"]

/-- First preferred mime contained in the offer's accumulated mime set. -/
def chooseMime (mime_types : List String) : Option String :=
  preference.find? (fun m => mime_types.contains m)

/-- Source: the store-relevant flow of the `Selection` arm of
`Dispatch<ExtDataControlDeviceV1, ()>::event` (daemon.rs lines 203-250):
pick a mime via `chooseMime`; if none, warn and return with the state
untouched; otherwise `receive` on a pipe and run
`do_read_clipboard_into_history` on the bytes the selection owner writes
for that mime (`pipeData`).  No other check — in particular no
password-manager-hint check — is performed. -/
def selectionCapture (s : SharedState) (mime_types : List String) (time : Nat)
    (pipeData : List Nat) : SharedState :=
  match chooseMime mime_types with
  | none => s
  | some mime => do_read_clipboard_into_history s time mime pipeData

/-- Source: `const MESSAGE_READ: u8 = 1;` (src/src/lib.rs,
src/clippyboard-shared/src/lib.rs). -/
def MESSAGE_READ : Nat := 1

/-- Source: `const MESSAGE_COPY: u8 = 2;` (src/src/lib.rs,
src/clippyboard-shared/src/lib.rs). -/
def MESSAGE_COPY : Nat := 2

/-- Source: `pub const MESSAGE_CLEAR: u8 = 3;`
(src/clippyboard-shared/src/lib.rs lines 27-30), sent by the
clippyboard-clear client. -/
def MESSAGE_CLEAR : Nat := 3

/-- Little-endian u64 read, as in `u64::from_le_bytes` on the 8 bytes that
`handle_copy` reads; `none` models a short read. -/
def readU64LE (bs : List Nat) : Option Nat :=
  match bs with
  | b0 :: b1 :: b2 :: b3 :: b4 :: b5 :: b6 :: b7 :: _ =>
    some (b0 + b1 * 2 ^ 8 + b2 * 2 ^ 16 + b3 * 2 ^ 24 + b4 * 2 ^ 32 + b5 * 2 ^ 40 +
      b6 * 2 ^ 48 + b7 * 2 ^ 56)
  | _ => none

/-- Source: `handle_copy` (daemon.rs lines 483-503) together with the
`last_copied_item_id.store(entry.id, ..)` done by `do_copy_into_clipboard`
(lines 552-554): find the position of the entry with the requested id
(`iter().position`); if none, return with the state untouched; otherwise
`remove` it from that position and `push` it at the tail, then record its
id as the last copied one.  The Wayland data-source creation performed by
`do_copy_into_clipboard` and the wakeup-pipe byte have no store effect and
are omitted. -/
def handle_copy (s : SharedState) (id : Nat) : SharedState :=
  match s.items.findIdx? (fun item => item.id == id) with
  | none => s
  | some idx =>
    match s.items[idx]? with
    | none => s
    | some item =>
      { s with items := s.items.eraseIdx idx ++ [item], last_copied_item_id := item.id }

/-- Source: `handle_peer` (daemon.rs lines 461-479).  `request` is the
byte stream the peer sends; an empty stream is the benign short read.  The
match on the opcode byte has arms for `MESSAGE_READ` (respond with the
item snapshot) and `MESSAGE_COPY` (read an 8-byte little-endian id and run
`handle_copy`); every other opcode falls into the `_ => {}` arm and does
nothing.  Returns the new state and the READ response, if any. -/
def handle_peer (s : SharedState) (request : List Nat) :
    SharedState × Option (List HistoryItem) :=
  match request with
  | [] => (s, none)
  | op :: payload =>
    if op == MESSAGE_READ then (s, some s.items)
    else if op == MESSAGE_COPY then
      match readU64LE payload with
      | none => (s, none)
      | some id => (handle_copy s id, none)
    else (s, none)

/-- Outcome of `UnixListener::bind`. -/
inductive BindOutcome where
  | ok
  | addrInUse
deriving DecidableEq, Repr

/-- Source: `let _ = std::fs::remove_file(&socket_path);` (daemon.rs line
346).  The file at the socket path is modelled as `Option Nat` — `some o`
means a socket file owned by daemon `o` exists.  POSIX unlink removes
whatever file is at the path; the `Result` is discarded by the caller. -/
def remove_file (_file : Option Nat) : Option Nat := none

/-- Source: `UnixListener::bind(&socket_path)` (daemon.rs line 347).
Binding an AF_UNIX address fails with `AddrInUse` when a file already
exists at the path; otherwise it creates the socket file, now owned by the
binding daemon. -/
def bindUnixListener (file : Option Nat) (newOwner : Nat) : Option Nat × BindOutcome :=
  match file with
  | some owner => (some owner, BindOutcome.addrInUse)
  | none => (some newOwner, BindOutcome.ok)

/-- Source: the startup sequence of `daemon::main` (daemon.rs lines
346-348): unconditionally `remove_file` the socket path, then bind. -/
def daemonStartupSocket (file : Option Nat) (self : Nat) : Option Nat × BindOutcome :=
  bindUnixListener (remove_file file) self

/-- Inductive invariant of the capture path: store ids are strictly
increasing in store order and all lie below the id counter. -/
def IdsOk (s : SharedState) : Prop :=
  List.Pairwise (fun a b => a.id < b.id) s.items ∧ ∀ it ∈ s.items, it.id < s.next_item_id

instance : DecidablePred IdsOk := fun s =>
  inferInstanceAs (Decidable (_ ∧ _))

/-!
CBOR wire codec.

`handle_peer` answers `MESSAGE_READ` with
`ciborium::into_writer(items.as_slice(), ..)` (daemon.rs lines 467-471)
and the picker decodes it with `ciborium::from_reader::<Vec<Entry>>`
(display.rs lines 120-121).  ciborium maps the serde data model onto
RFC 8949 CBOR with preferred (minimal-width) integer encoding:

* a slice becomes a definite-length array (major type 4);
* a derived struct becomes a definite-length map (major type 5) whose
  keys are the field names as text strings (major type 3), in
  declaration order `id`, `mime`, `data`, `created_time`;
* `u64` becomes an unsigned integer (major type 0);
* the custom `serialize_data` impl (src/src/lib.rs) serializes the
  payload as a serde sequence of `u8`, i.e. an array of unsigned
  integers, and `Entry`'s derived `data: Vec<u8>` deserializes the same
  shape.

Text strings are carried as their UTF-8 bytes; the model takes a
character's codepoint as its byte, which coincides with UTF-8 exactly on
ASCII strings (all field names and the recognised mime identifiers are
ASCII; the well-formedness predicate below restricts to that case).
-/

/-- UTF-8 bytes of an ASCII string (codepoints, faithful below 0x80). -/
def stringBytes (s : String) : List Nat := s.data.map Char.toNat

/-- Inverse of `stringBytes` on ASCII byte lists. -/
def bytesString (bs : List Nat) : String := String.mk (bs.map Char.ofNat)

/-- CBOR head: major type (0-7) in the top 3 bits and the argument,
encoded with the minimal width (RFC 8949 preferred serialization, as
ciborium writes it). -/
def encodeHead (major arg : Nat) : List Nat :=
  if arg < 24 then [major * 32 + arg]
  else if arg < 2 ^ 8 then [major * 32 + 24, arg]
  else if arg < 2 ^ 16 then [major * 32 + 25, arg / 2 ^ 8 % 2 ^ 8, arg % 2 ^ 8]
  else if arg < 2 ^ 32 then
    [major * 32 + 26, arg / 2 ^ 24 % 2 ^ 8, arg / 2 ^ 16 % 2 ^ 8, arg / 2 ^ 8 % 2 ^ 8,
      arg % 2 ^ 8]
  else
    [major * 32 + 27, arg / 2 ^ 56 % 2 ^ 8, arg / 2 ^ 48 % 2 ^ 8, arg / 2 ^ 40 % 2 ^ 8,
      arg / 2 ^ 32 % 2 ^ 8, arg / 2 ^ 24 % 2 ^ 8, arg / 2 ^ 16 % 2 ^ 8, arg / 2 ^ 8 % 2 ^ 8,
      arg % 2 ^ 8]

/-- Decode a CBOR head of the expected major type, returning the argument
and the remaining bytes. -/
def decodeHead (major : Nat) (bs : List Nat) : Option (Nat × List Nat) :=
  match bs with
  | [] => none
  | b :: rest =>
    if b / 32 = major then
      let info := b % 32
      if info < 24 then some (info, rest)
      else if info = 24 then
        match rest with
        | b0 :: r => some (b0, r)
        | _ => none
      else if info = 25 then
        match rest with
        | b0 :: b1 :: r => some (b0 * 2 ^ 8 + b1, r)
        | _ => none
      else if info = 26 then
        match rest with
        | b0 :: b1 :: b2 :: b3 :: r =>
          some (b0 * 2 ^ 24 + b1 * 2 ^ 16 + b2 * 2 ^ 8 + b3, r)
        | _ => none
      else if info = 27 then
        match rest with
        | b0 :: b1 :: b2 :: b3 :: b4 :: b5 :: b6 :: b7 :: r =>
          some (b0 * 2 ^ 56 + b1 * 2 ^ 48 + b2 * 2 ^ 40 + b3 * 2 ^ 32 + b4 * 2 ^ 24 +
            b5 * 2 ^ 16 + b6 * 2 ^ 8 + b7, r)
        | _ => none
      else none
    else none

/-- CBOR text string (major type 3): length head followed by the bytes. -/
def encodeText (s : String) : List Nat :=
  encodeHead 3 (stringBytes s).length ++ stringBytes s

/-- Decode a CBOR text string. -/
def decodeText (bs : List Nat) : Option (String × List Nat) :=
  match decodeHead 3 bs with
  | none => none
  | some (n, rest) =>
    if n ≤ rest.length then some (bytesString (rest.take n), rest.drop n) else none

/-- CBOR encoding of the `data` payload as written by `serialize_data`:
a definite-length array of unsigned integers. -/
def encodeByteSeq (data : List Nat) : List Nat :=
  encodeHead 4 data.length ++ (data.map (encodeHead 0)).flatten

/-- Decode `n` unsigned integers. -/
def decodeUints : Nat → List Nat → Option (List Nat × List Nat)
  | 0, bs => some ([], bs)
  | n + 1, bs =>
    match decodeHead 0 bs with
    | none => none
    | some (v, rest) =>
      match decodeUints n rest with
      | none => none
      | some (vs, r) => some (v :: vs, r)

/-- Decode the `data` payload. -/
def decodeByteSeq (bs : List Nat) : Option (List Nat × List Nat) :=
  match decodeHead 4 bs with
  | none => none
  | some (n, rest) => decodeUints n rest

/-- CBOR encoding of one `HistoryItem` as ciborium writes the derived
`Serialize` impl: a 4-entry map with text keys in declaration order. -/
def encodeItem (it : HistoryItem) : List Nat :=
  encodeHead 5 4 ++
    encodeText "id" ++ encodeHead 0 it.id ++
    encodeText "mime" ++ encodeText it.mime ++
    encodeText "data" ++ encodeByteSeq it.data ++
    encodeText "created_time" ++ encodeHead 0 it.created_time

/-- Decode one entry map.  Models the derived `Deserialize` impl of
`Entry` (src/src/main.rs) on the canonical key order the daemon's
serializer emits; unknown shapes fail. -/
def decodeItem (bs : List Nat) : Option (HistoryItem × List Nat) :=
  match decodeHead 5 bs with
  | none => none
  | some (nfields, r0) =>
    if nfields = 4 then
      match decodeText r0 with
      | some (k1, r1) =>
        if k1 = "id" then
          match decodeHead 0 r1 with
          | none => none
          | some (id, r2) =>
            match decodeText r2 with
            | some (k2, r3) =>
              if k2 = "mime" then
                match decodeText r3 with
                | none => none
                | some (mime, r4) =>
                  match decodeText r4 with
                  | some (k3, r5) =>
                    if k3 = "data" then
                      match decodeByteSeq r5 with
                      | none => none
                      | some (data, r6) =>
                        match decodeText r6 with
                        | some (k4, r7) =>
                          if k4 = "created_time" then
                            match decodeHead 0 r7 with
                            | none => none
                            | some (ct, r8) =>
                              some (⟨id, mime, data, ct⟩, r8)
                          else none
                        | none => none
                    else none
                  | none => none
              else none
            | none => none
        else none
      | none => none
    else none

/-- Decode `n` entry maps. -/
def decodeItemSeq : Nat → List Nat → Option (List HistoryItem × List Nat)
  | 0, bs => some ([], bs)
  | n + 1, bs =>
    match decodeItem bs with
    | none => none
    | some (it, rest) =>
      match decodeItemSeq n rest with
      | none => none
      | some (its, r) => some (it :: its, r)

/-- Source: the `MESSAGE_READ` response (daemon.rs lines 467-471):
`ciborium::into_writer(items.as_slice(), ..)` — a definite-length CBOR
array of entry maps, oldest first. -/
def cborSerializeItems (items : List HistoryItem) : List Nat :=
  encodeHead 4 items.length ++ (items.map encodeItem).flatten

/-- Source: the picker's `ciborium::from_reader::<Vec<Entry>>`
(display.rs lines 120-121): decode a CBOR array of entry maps. -/
def cborDeserializeItems (bs : List Nat) : Option (List HistoryItem × List Nat) :=
  match decodeHead 4 bs with
  | none => none
  | some (n, rest) => decodeItemSeq n rest

/-- Well-formedness of an entry for the wire codec: the integer fields fit
in a u64, the payload bytes fit in a u8, and the mime string is ASCII (so
the codepoint-level text model coincides with UTF-8). -/
def ItemWF (it : HistoryItem) : Prop :=
  it.id < U64_MOD ∧ it.created_time < U64_MOD ∧ it.data.length < U64_MOD ∧
    (∀ b ∈ it.data, b < 256) ∧ (stringBytes it.mime).length < U64_MOD ∧
    ∀ b ∈ stringBytes it.mime, b < 128

instance : DecidablePred ItemWF := fun it =>
  inferInstanceAs (Decidable (_ ∧ _))

/-! Helper lemmas about the embedded operations. -/

lemma chooseMime_eq (mimes : List String) :
    chooseMime mimes =
      (if mimes.contains "text/plain" = true then some "text/plain"
       else if mimes.contains "image/png" = true then some "image/png" else none) := by
  unfold chooseMime preference
  cases h1 : mimes.contains "text/plain" <;> cases h2 : mimes.contains "image/png" <;>
    simp only [List.elem_eq_mem, decide_eq_true_eq, decide_eq_false_iff_not] at h1 h2 <;>
    simp [List.find?, h1, h2]

lemma contains_cons_of_ne (a m : String) (l : List String) (h : m ≠ a) :
    (a :: l).contains m = l.contains m := by
  simp [List.contains_cons, h]

lemma findIdx?_none_of (p : HistoryItem → Bool) :
    ∀ (l : List HistoryItem) (start : Nat), (∀ a ∈ l, p a = false) →
      List.findIdx? p l start = none := by
  intro l
  induction l with
  | nil => intro start _; rfl
  | cons a l ih =>
    intro start h
    rw [List.findIdx?_cons]
    simp only [h a (by simp)]
    simpa using ih (start + 1) (fun x hx => h x (by simp [hx]))

lemma findIdx?_some_of (p : HistoryItem → Bool) :
    ∀ (l : List HistoryItem) (start i : Nat) (hi : i < l.length),
      p (l.get ⟨i, hi⟩) = true →
      (∀ (j : Nat) (hj : j < l.length), j < i → p (l.get ⟨j, hj⟩) = false) →
      List.findIdx? p l start = some (start + i) := by
  intro l
  induction l with
  | nil => intro start i hi; exact absurd hi (by simp)
  | cons a l ih =>
    intro start i hi hp hmin
    rw [List.findIdx?_cons]
    cases i with
    | zero =>
      have hp0 : p a = true := by simpa using hp
      simp [hp0]
    | succ i =>
      have ha : p a = false := hmin 0 (by simp) (by omega)
      simp only [ha, if_false, Bool.false_eq_true]
      have := ih (start + 1) i (by simpa using hi) (by simpa using hp)
        (fun j hj hji => hmin (j + 1) (by simpa using hj) (by omega))
      rw [this]
      congr 1
      omega

lemma spliceFront_sublist (l : List HistoryItem) (c : Option Nat) :
    (spliceFront l c).Sublist l := by
  cases c with
  | none => exact List.Sublist.refl l
  | some c => exact List.drop_sublist _ _

lemma appendEvict_sublist (l : List HistoryItem) (e : HistoryItem) :
    (appendEvict l e).Sublist (l ++ [e]) :=
  spliceFront_sublist _ _

lemma IdsOk_do_read (s : SharedState) (time : Nat) (mime : String) (pipeData : List Nat)
    (hlt : s.next_item_id + 1 < U64_MOD) (hok : IdsOk s) :
    IdsOk (do_read_clipboard_into_history s time mime pipeData) := by
  obtain ⟨hpw, hbound⟩ := hok
  have hmod : (s.next_item_id + 1) % U64_MOD = s.next_item_id + 1 := Nat.mod_eq_of_lt hlt
  simp only [do_read_clipboard_into_history]
  split
  · exact ⟨hpw, fun it hit => by have := hbound it hit; simp only [hmod]; omega⟩
  · split
    · exact ⟨hpw, fun it hit => by have := hbound it hit; simp only [hmod]; omega⟩
    · refine ⟨?_, ?_⟩
      · show List.Pairwise (fun a b => a.id < b.id)
          (appendEvict s.items ⟨s.next_item_id, mime, pipeData.take MAX_ENTRY_SIZE, time⟩)
        have hpushed : List.Pairwise (fun a b => a.id < b.id)
            (s.items ++ [(⟨s.next_item_id, mime, pipeData.take MAX_ENTRY_SIZE, time⟩ :
              HistoryItem)]) := by
          rw [List.pairwise_append]
          refine ⟨hpw, List.pairwise_singleton _ _, fun a ha b hb => ?_⟩
          simp at hb
          subst hb
          exact hbound a ha
        exact hpushed.sublist (appendEvict_sublist _ _)
      · show ∀ it ∈ appendEvict s.items ⟨s.next_item_id, mime, pipeData.take MAX_ENTRY_SIZE, time⟩,
          it.id < (s.next_item_id + 1) % U64_MOD
        intro it hit
        have hmem := (appendEvict_sublist _ _).subset hit
        simp only [hmod]
        rw [List.mem_append] at hmem
        rcases hmem with h | h
        · have := hbound it h
          omega
        · simp at h
          subst h
          simp

lemma foldl_evictStep_fst :
    ∀ (L : List (Nat × HistoryItem)) (t0 : Nat) (c0 : Option Nat),
      (L.foldl evictStep (t0, c0)).1 = t0 + (L.map (fun p => itemSize p.2)).sum := by
  intro L
  induction L with
  | nil => intro t0 c0; simp
  | cons p L ih =>
    intro t0 c0
    simp only [List.foldl_cons, List.map_cons, List.sum_cons, evictStep]
    rw [ih]
    omega

lemma foldl_evictStep_snd_le :
    ∀ (L : List (Nat × HistoryItem)) (t0 : Nat) (c0 : Option Nat),
      t0 + (L.map (fun p => itemSize p.2)).sum ≤ MAX_HISTORY_BYTE_SIZE →
      (L.foldl evictStep (t0, c0)).2 = c0 := by
  intro L
  induction L with
  | nil => intro t0 c0 _; rfl
  | cons p L ih =>
    intro t0 c0 h
    simp only [List.map_cons, List.sum_cons] at h
    simp only [List.foldl_cons, evictStep]
    rw [if_neg (by omega)]
    exact ih (t0 + itemSize p.2) c0 (by omega)

lemma foldl_evictStep_snd_gt :
    ∀ (L : List (Nat × HistoryItem)) (e : HistoryItem) (t0 : Nat) (c0 : Option Nat),
      t0 + ((L ++ [((0 : Nat), e)]).map (fun p => itemSize p.2)).sum > MAX_HISTORY_BYTE_SIZE →
      ((L ++ [((0 : Nat), e)]).foldl evictStep (t0, c0)).2 = some 0 := by
  intro L
  induction L with
  | nil =>
    intro e t0 c0 h
    simp only [List.map_cons, List.sum_cons, List.map_nil, List.sum_nil, List.nil_append] at h
    simp only [List.nil_append, List.foldl_cons, List.foldl_nil, evictStep]
    rw [if_pos (by omega)]
  | cons p L ih =>
    intro e t0 c0 h
    simp only [List.cons_append, List.map_cons, List.sum_cons] at h
    simp only [List.cons_append, List.foldl_cons, evictStep]
    exact ih e (t0 + itemSize p.2) _ (by simp only [List.map_append] at h ⊢; omega)

lemma sum_sizes_enumFrom (l : List HistoryItem) (n : Nat) :
    ((List.enumFrom n l).map (fun p => itemSize p.2)).sum = totalSize l := by
  have h : (fun p : Nat × HistoryItem => itemSize p.2) = itemSize ∘ Prod.snd := rfl
  rw [h, ← List.map_map, List.enumFrom_map_snd]
  rfl

lemma evictScan_eq (items : List HistoryItem) :
    evictScan items =
      (totalSize items,
        if totalSize items > MAX_HISTORY_BYTE_SIZE then some 0 else none) := by
  have hfst : (evictScan items).1 = totalSize items := by
    rw [evictScan, foldl_evictStep_fst, List.map_reverse, List.sum_reverse, List.enum]
    simpa using sum_sizes_enumFrom items 0
  have hsnd : (evictScan items).2 =
      if totalSize items > MAX_HISTORY_BYTE_SIZE then some 0 else none := by
    cases items with
    | nil =>
      have h0 : totalSize ([] : List HistoryItem) = 0 := rfl
      rw [h0]
      simp [evictScan, MAX_HISTORY_BYTE_SIZE]
    | cons a l =>
      have hshape : (a :: l).enum.reverse = (List.enumFrom 1 l).reverse ++ [((0 : Nat), a)] := by
        rw [List.enum_cons]
        simp
      have hsum : (((List.enumFrom 1 l).reverse ++ [((0 : Nat), a)]).map
          (fun p => itemSize p.2)).sum = totalSize (a :: l) := by
        rw [List.map_append, List.sum_append, List.map_reverse, List.sum_reverse,
          sum_sizes_enumFrom]
        simp [totalSize]
        omega
      by_cases hgt : totalSize (a :: l) > MAX_HISTORY_BYTE_SIZE
      · rw [evictScan, hshape, if_pos hgt]
        exact foldl_evictStep_snd_gt _ a 0 none (by rw [hsum]; omega)
      · rw [evictScan, hshape, if_neg hgt]
        exact foldl_evictStep_snd_le _ 0 none (by rw [hsum]; omega)
  calc evictScan items = ((evictScan items).1, (evictScan items).2) := rfl
    _ = _ := by rw [hfst, hsnd]

lemma appendEvict_eq (items : List HistoryItem) (e : HistoryItem) :
    appendEvict items e =
      if totalSize (items ++ [e]) > MAX_HISTORY_BYTE_SIZE then (items ++ [e]).drop 1
      else items ++ [e] := by
  rw [appendEvict, evictScan_eq]
  by_cases h : totalSize (items ++ [e]) > MAX_HISTORY_BYTE_SIZE
  · rw [if_pos h, if_pos h]
    rfl
  · rw [if_neg h, if_neg h]
    rfl

lemma do_read_stores (s : SharedState) (time : Nat) (mime : String) (pipeData : List Nat)
    (h1 : tailDuplicate s.items mime (pipeData.take MAX_ENTRY_SIZE) = false)
    (h2 : selfCopyDuplicate s.items s.last_copied_item_id mime
      (pipeData.take MAX_ENTRY_SIZE) = false) :
    do_read_clipboard_into_history s time mime pipeData =
      { next_item_id := (s.next_item_id + 1) % U64_MOD,
        last_copied_item_id := s.last_copied_item_id,
        items := appendEvict s.items
          ⟨s.next_item_id, mime, pipeData.take MAX_ENTRY_SIZE, time⟩ } := by
  simp only [do_read_clipboard_into_history, h1, h2]
  rfl

lemma tailDuplicate_concat (l : List HistoryItem) (x : HistoryItem) (m : String)
    (d : List Nat) :
    tailDuplicate (l ++ [x]) m d = (x.mime == m && x.data == d) := by
  rw [tailDuplicate, List.getLast?_concat]

lemma selfCopyDuplicate_none (items : List HistoryItem) (lc : Nat) (m : String)
    (d : List Nat) (h : ∀ it ∈ items, (it.id == lc) = false) :
    selfCopyDuplicate items lc m d = false := by
  rw [selfCopyDuplicate,
    List.find?_eq_none.mpr (fun x hx => by rw [h x hx]; exact Bool.false_ne_true)]

/-! Round-trip lemmas for the CBOR codec. -/

lemma decodeHead_encodeHead (major arg : Nat) (hm : major < 8) (ha : arg < 2 ^ 64)
    (rest : List Nat) :
    decodeHead major (encodeHead major arg ++ rest) = some (arg, rest) := by
  rw [encodeHead]
  by_cases h1 : arg < 24
  · rw [if_pos h1]
    simp only [List.cons_append, List.nil_append, decodeHead]
    rw [if_pos (by omega)]
    rw [show (major * 32 + arg) % 32 = arg from by omega]
    rw [if_pos h1]
  · rw [if_neg h1]
    by_cases h2 : arg < 2 ^ 8
    · rw [if_pos h2]
      simp only [List.cons_append, List.nil_append, decodeHead]
      rw [if_pos (by omega)]
      rw [show (major * 32 + 24) % 32 = 24 from by omega]
      norm_num
    · rw [if_neg h2]
      by_cases h3 : arg < 2 ^ 16
      · rw [if_pos h3]
        simp only [List.cons_append, List.nil_append, decodeHead]
        rw [if_pos (by omega)]
        rw [show (major * 32 + 25) % 32 = 25 from by omega]
        norm_num
        omega
      · rw [if_neg h3]
        by_cases h4 : arg < 2 ^ 32
        · rw [if_pos h4]
          simp only [List.cons_append, List.nil_append, decodeHead]
          rw [if_pos (by omega)]
          rw [show (major * 32 + 26) % 32 = 26 from by omega]
          norm_num
          omega
        · rw [if_neg h4]
          simp only [List.cons_append, List.nil_append, decodeHead]
          rw [if_pos (by omega)]
          rw [show (major * 32 + 27) % 32 = 27 from by omega]
          norm_num
          omega

lemma bytesString_stringBytes (s : String) : bytesString (stringBytes s) = s := by
  rw [bytesString, stringBytes, List.map_map]
  have h : (Char.ofNat ∘ Char.toNat) = id := by
    funext c
    exact Char.ofNat_toNat c
  rw [h, List.map_id]

lemma decodeText_encodeText (s : String) (hlen : (stringBytes s).length < 2 ^ 64)
    (rest : List Nat) :
    decodeText (encodeText s ++ rest) = some (s, rest) := by
  rw [encodeText, List.append_assoc, decodeText,
    decodeHead_encodeHead 3 (stringBytes s).length (by omega) hlen]
  dsimp only
  rw [if_pos (by rw [List.length_append]; omega)]
  rw [List.take_left, List.drop_left, bytesString_stringBytes]

lemma decodeUints_encode (data : List Nat) (hwf : ∀ b ∈ data, b < 2 ^ 64) :
    ∀ (rest : List Nat),
      decodeUints data.length ((data.map (encodeHead 0)).flatten ++ rest) =
        some (data, rest) := by
  induction data with
  | nil => intro rest; rfl
  | cons b bs ih =>
    intro rest
    simp only [List.map_cons, List.flatten_cons, List.length_cons]
    rw [decodeUints, List.append_assoc,
      decodeHead_encodeHead 0 b (by omega) (hwf b (by simp))]
    dsimp only
    rw [ih (fun x hx => hwf x (by simp [hx])) rest]

lemma decodeByteSeq_encodeByteSeq (data : List Nat) (hlen : data.length < 2 ^ 64)
    (hwf : ∀ b ∈ data, b < 256) (rest : List Nat) :
    decodeByteSeq (encodeByteSeq data ++ rest) = some (data, rest) := by
  rw [encodeByteSeq, List.append_assoc, decodeByteSeq,
    decodeHead_encodeHead 4 data.length (by omega) hlen]
  exact decodeUints_encode data (fun b hb => by have := hwf b hb; omega) rest

lemma decodeItem_encodeItem (it : HistoryItem) (hwf : ItemWF it) (rest : List Nat) :
    decodeItem (encodeItem it ++ rest) = some (it, rest) := by
  obtain ⟨hid, hct, hdlen, hdata, hmlen, _⟩ := hwf
  simp only [encodeItem, List.append_assoc]
  rw [decodeItem, decodeHead_encodeHead 5 4 (by omega) (by norm_num)]
  dsimp only
  rw [if_pos rfl]
  rw [decodeText_encodeText "id" (by decide)]
  dsimp only
  rw [if_pos rfl]
  rw [decodeHead_encodeHead 0 it.id (by omega) hid]
  dsimp only
  rw [decodeText_encodeText "mime" (by decide)]
  dsimp only
  rw [if_pos rfl]
  rw [decodeText_encodeText it.mime hmlen]
  dsimp only
  rw [decodeText_encodeText "data" (by decide)]
  dsimp only
  rw [if_pos rfl]
  rw [decodeByteSeq_encodeByteSeq it.data hdlen hdata]
  dsimp only
  rw [decodeText_encodeText "created_time" (by decide)]
  dsimp only
  rw [if_pos rfl]
  rw [decodeHead_encodeHead 0 it.created_time (by omega) hct]

lemma decodeItemSeq_encode (items : List HistoryItem) (hwf : ∀ it ∈ items, ItemWF it) :
    ∀ (rest : List Nat),
      decodeItemSeq items.length ((items.map encodeItem).flatten ++ rest) =
        some (items, rest) := by
  induction items with
  | nil => intro rest; rfl
  | cons it its ih =>
    intro rest
    simp only [List.map_cons, List.flatten_cons, List.length_cons]
    rw [decodeItemSeq, List.append_assoc, decodeItem_encodeItem it (hwf it (by simp))]
    dsimp only
    rw [ih (fun x hx => hwf x (by simp [hx])) rest]

/-! Claim theorems. -/

/-- C1 (counterexample): a confirmed selection whose offer advertises
`x-kde-passwordManagerHint` and whose pipe yields exactly b"secret"
([115, 101, 99, 114, 101, 116]) IS appended to the history store — the
capture path has no secret check, refuting the claim that the store is
unchanged by such a selection. -/
theorem c1_secret_hint_selection_stored :
    (selectionCapture initialState ["x-kde-passwordManagerHint", "text/plain"] 7
        [115, 101, 99, 114, 101, 116]).items ≠ initialState.items := by
  decide

/-- C1 (amended): the capture path performs no password-manager-hint
check at all — adding `x-kde-passwordManagerHint` to an offer's MIME set
never changes the capture result; in particular a hinted selection whose
bytes are b"secret" is stored under the ordinary Append rules. -/
theorem c1_hint_has_no_effect :
    ∀ (s : SharedState) (mimes : List String) (time : Nat) (pipeData : List Nat),
      selectionCapture s ("x-kde-passwordManagerHint" :: mimes) time pipeData =
        selectionCapture s mimes time pipeData := by
  intro s mimes time pipeData
  have h : chooseMime ("x-kde-passwordManagerHint" :: mimes) = chooseMime mimes := by
    rw [chooseMime_eq, chooseMime_eq,
      contains_cons_of_ne _ _ _ (by decide),
      contains_cons_of_ne _ _ _ (by decide)]
  unfold selectionCapture
  rw [h]

/-- C2: the byte-bound invariant fails on the code.  Starting from the
fresh daemon state, four captures with pairwise-distinct payloads of
33000000, 33000000, 33000000 and 50000000 bytes (each within
`MAX_ENTRY_SIZE`) leave the store holding four entries whose accounted
size exceeds `MAX_HISTORY_BYTE_SIZE`: the eviction scan overwrites its
cutoff on every index at which the running total is above the bound, so
the final cutoff is always index 0 and only the single oldest entry (here
the seed) is dropped, even though the remaining total still breaches the
bound. -/
theorem c2_byte_bound_violated (d1 d2 d3 d4 : List Nat)
    (hlen1 : d1.length = 33000000) (hlen2 : d2.length = 33000000)
    (hlen3 : d3.length = 33000000) (hlen4 : d4.length = 50000000)
    (hne1 : d1 ≠ [109, 101, 111, 119]) (hne2 : d2 ≠ d1) (hne3 : d3 ≠ d2) (hne4 : d4 ≠ d3) :
    totalSize (do_read_clipboard_into_history
        (do_read_clipboard_into_history
          (do_read_clipboard_into_history
            (do_read_clipboard_into_history initialState 1 "text/plain" d1)
            2 "text/plain" d2)
          3 "text/plain" d3)
        4 "text/plain" d4).items > MAX_HISTORY_BYTE_SIZE ∧
    (do_read_clipboard_into_history
        (do_read_clipboard_into_history
          (do_read_clipboard_into_history
            (do_read_clipboard_into_history initialState 1 "text/plain" d1)
            2 "text/plain" d2)
          3 "text/plain" d3)
        4 "text/plain" d4).items.length = 4 := by
  have htake1 : d1.take MAX_ENTRY_SIZE = d1 :=
    List.take_of_length_le (by rw [hlen1]; norm_num [MAX_ENTRY_SIZE])
  have htake2 : d2.take MAX_ENTRY_SIZE = d2 :=
    List.take_of_length_le (by rw [hlen2]; norm_num [MAX_ENTRY_SIZE])
  have htake3 : d3.take MAX_ENTRY_SIZE = d3 :=
    List.take_of_length_le (by rw [hlen3]; norm_num [MAX_ENTRY_SIZE])
  have htake4 : d4.take MAX_ENTRY_SIZE = d4 :=
    List.take_of_length_le (by rw [hlen4]; norm_num [MAX_ENTRY_SIZE])
  have s1 : do_read_clipboard_into_history initialState 1 "text/plain" d1 =
      { next_item_id := 1, last_copied_item_id := U64_MOD - 1,
        items := [seedItem, ⟨0, "text/plain", d1, 1⟩] } := by
    have htail : tailDuplicate initialState.items "text/plain"
        (d1.take MAX_ENTRY_SIZE) = false := by
      rw [htake1, show initialState.items = [] ++ [seedItem] from rfl, tailDuplicate_concat]
      rw [beq_false_of_ne (fun h : seedItem.data = d1 => hne1 h.symm), Bool.and_false]
    have hself : selfCopyDuplicate initialState.items initialState.last_copied_item_id
        "text/plain" (d1.take MAX_ENTRY_SIZE) = false := by
      apply selfCopyDuplicate_none
      intro it hit
      rw [show initialState.items = [seedItem] from rfl] at hit
      simp only [List.mem_singleton] at hit
      subst hit
      decide
    rw [do_read_stores initialState 1 "text/plain" d1 htail hself, htake1]
    rw [show initialState.items = [seedItem] from rfl]
    rw [appendEvict_eq, if_neg]
    · norm_num [initialState, U64_MOD]
    · simp only [totalSize, List.map_append, List.map_cons, List.map_nil, List.sum_append,
        List.sum_cons, List.sum_nil, itemSize, seedItem, List.length_cons, List.length_nil,
        HISTORY_ITEM_OVERHEAD, MAX_HISTORY_BYTE_SIZE]
      rw [hlen1]
      omega
  have s2 : do_read_clipboard_into_history
      { next_item_id := 1, last_copied_item_id := U64_MOD - 1,
        items := [seedItem, ⟨0, "text/plain", d1, 1⟩] } 2 "text/plain" d2 =
      { next_item_id := 2, last_copied_item_id := U64_MOD - 1,
        items := [seedItem, ⟨0, "text/plain", d1, 1⟩, ⟨1, "text/plain", d2, 2⟩] } := by
    have htail : tailDuplicate [seedItem, ⟨0, "text/plain", d1, 1⟩] "text/plain"
        (d2.take MAX_ENTRY_SIZE) = false := by
      rw [htake2, show [seedItem, (⟨0, "text/plain", d1, 1⟩ : HistoryItem)] =
        [seedItem] ++ [⟨0, "text/plain", d1, 1⟩] from rfl, tailDuplicate_concat]
      rw [show ((⟨0, "text/plain", d1, 1⟩ : HistoryItem).data == d2) =
        (d1 == d2) from rfl]
      rw [beq_false_of_ne (fun h : d1 = d2 => hne2 h.symm), Bool.and_false]
    have hself : selfCopyDuplicate [seedItem, ⟨0, "text/plain", d1, 1⟩] (U64_MOD - 1)
        "text/plain" (d2.take MAX_ENTRY_SIZE) = false := by
      apply selfCopyDuplicate_none
      intro it hit
      simp only [List.mem_cons, List.mem_singleton, List.not_mem_nil, or_false] at hit
      rcases hit with h | h <;> subst h <;> rfl
    rw [do_read_stores _ 2 "text/plain" d2 htail hself, htake2]
    rw [appendEvict_eq, if_neg]
    · norm_num [U64_MOD]
    · simp only [totalSize, List.map_append, List.map_cons, List.map_nil, List.sum_append,
        List.sum_cons, List.sum_nil, itemSize, seedItem, List.length_cons, List.length_nil,
        HISTORY_ITEM_OVERHEAD, MAX_HISTORY_BYTE_SIZE]
      rw [hlen1, hlen2]
      omega
  have s3 : do_read_clipboard_into_history
      { next_item_id := 2, last_copied_item_id := U64_MOD - 1,
        items := [seedItem, ⟨0, "text/plain", d1, 1⟩, ⟨1, "text/plain", d2, 2⟩] }
      3 "text/plain" d3 =
      { next_item_id := 3, last_copied_item_id := U64_MOD - 1,
        items := [seedItem, ⟨0, "text/plain", d1, 1⟩, ⟨1, "text/plain", d2, 2⟩,
          ⟨2, "text/plain", d3, 3⟩] } := by
    have htail : tailDuplicate
        [seedItem, ⟨0, "text/plain", d1, 1⟩, ⟨1, "text/plain", d2, 2⟩] "text/plain"
        (d3.take MAX_ENTRY_SIZE) = false := by
      rw [htake3, show [seedItem, (⟨0, "text/plain", d1, 1⟩ : HistoryItem),
          (⟨1, "text/plain", d2, 2⟩ : HistoryItem)] =
        [seedItem, ⟨0, "text/plain", d1, 1⟩] ++ [⟨1, "text/plain", d2, 2⟩] from rfl,
        tailDuplicate_concat]
      rw [show ((⟨1, "text/plain", d2, 2⟩ : HistoryItem).data == d3) = (d2 == d3) from rfl]
      rw [beq_false_of_ne (fun h : d2 = d3 => hne3 h.symm), Bool.and_false]
    have hself : selfCopyDuplicate
        [seedItem, ⟨0, "text/plain", d1, 1⟩, ⟨1, "text/plain", d2, 2⟩] (U64_MOD - 1)
        "text/plain" (d3.take MAX_ENTRY_SIZE) = false := by
      apply selfCopyDuplicate_none
      intro it hit
      simp only [List.mem_cons, List.mem_singleton, List.not_mem_nil, or_false] at hit
      rcases hit with h | h | h <;> subst h <;> rfl
    rw [do_read_stores _ 3 "text/plain" d3 htail hself, htake3]
    rw [appendEvict_eq, if_neg]
    · norm_num [U64_MOD]
    · simp only [totalSize, List.map_append, List.map_cons, List.map_nil, List.sum_append,
        List.sum_cons, List.sum_nil, itemSize, seedItem, List.length_cons, List.length_nil,
        HISTORY_ITEM_OVERHEAD, MAX_HISTORY_BYTE_SIZE]
      rw [hlen1, hlen2, hlen3]
      omega
  have s4 : do_read_clipboard_into_history
      { next_item_id := 3, last_copied_item_id := U64_MOD - 1,
        items := [seedItem, ⟨0, "text/plain", d1, 1⟩, ⟨1, "text/plain", d2, 2⟩,
          ⟨2, "text/plain", d3, 3⟩] } 4 "text/plain" d4 =
      { next_item_id := 4, last_copied_item_id := U64_MOD - 1,
        items := [⟨0, "text/plain", d1, 1⟩, ⟨1, "text/plain", d2, 2⟩,
          ⟨2, "text/plain", d3, 3⟩, ⟨3, "text/plain", d4, 4⟩] } := by
    have htail : tailDuplicate
        [seedItem, ⟨0, "text/plain", d1, 1⟩, ⟨1, "text/plain", d2, 2⟩,
          ⟨2, "text/plain", d3, 3⟩] "text/plain" (d4.take MAX_ENTRY_SIZE) = false := by
      rw [htake4, show [seedItem, (⟨0, "text/plain", d1, 1⟩ : HistoryItem),
          (⟨1, "text/plain", d2, 2⟩ : HistoryItem), (⟨2, "text/plain", d3, 3⟩ : HistoryItem)] =
        [seedItem, ⟨0, "text/plain", d1, 1⟩, ⟨1, "text/plain", d2, 2⟩] ++
          [⟨2, "text/plain", d3, 3⟩] from rfl, tailDuplicate_concat]
      rw [show ((⟨2, "text/plain", d3, 3⟩ : HistoryItem).data == d4) = (d3 == d4) from rfl]
      rw [beq_false_of_ne (fun h : d3 = d4 => hne4 h.symm), Bool.and_false]
    have hself : selfCopyDuplicate
        [seedItem, ⟨0, "text/plain", d1, 1⟩, ⟨1, "text/plain", d2, 2⟩,
          ⟨2, "text/plain", d3, 3⟩] (U64_MOD - 1)
        "text/plain" (d4.take MAX_ENTRY_SIZE) = false := by
      apply selfCopyDuplicate_none
      intro it hit
      simp only [List.mem_cons, List.mem_singleton, List.not_mem_nil, or_false] at hit
      rcases hit with h | h | h | h <;> subst h <;> rfl
    rw [do_read_stores _ 4 "text/plain" d4 htail hself, htake4]
    rw [appendEvict_eq, if_pos]
    · norm_num [U64_MOD]
    · simp only [totalSize, List.map_append, List.map_cons, List.map_nil, List.sum_append,
        List.sum_cons, List.sum_nil, itemSize, seedItem, List.length_cons, List.length_nil,
        HISTORY_ITEM_OVERHEAD, MAX_HISTORY_BYTE_SIZE]
      rw [hlen1, hlen2, hlen3, hlen4]
      omega
  rw [s1, s2, s3, s4]
  constructor
  · simp only [totalSize, List.map_cons, List.map_nil, List.sum_cons, List.sum_nil,
      itemSize, List.length_cons, List.length_nil, HISTORY_ITEM_OVERHEAD,
      MAX_HISTORY_BYTE_SIZE]
    rw [hlen1, hlen2, hlen3, hlen4]
    omega
  · simp

/-- C2 (witness): the evaluation at concrete payloads built from
`List.replicate`. -/
theorem c2_byte_bound_violated_witness :
    totalSize (do_read_clipboard_into_history
        (do_read_clipboard_into_history
          (do_read_clipboard_into_history
            (do_read_clipboard_into_history initialState 1 "text/plain"
              (1 :: List.replicate 32999999 0))
            2 "text/plain" (2 :: List.replicate 32999999 0))
          3 "text/plain" (3 :: List.replicate 32999999 0))
        4 "text/plain" (4 :: List.replicate 49999999 0)).items > MAX_HISTORY_BYTE_SIZE ∧
    (do_read_clipboard_into_history
        (do_read_clipboard_into_history
          (do_read_clipboard_into_history
            (do_read_clipboard_into_history initialState 1 "text/plain"
              (1 :: List.replicate 32999999 0))
            2 "text/plain" (2 :: List.replicate 32999999 0))
          3 "text/plain" (3 :: List.replicate 32999999 0))
        4 "text/plain" (4 :: List.replicate 49999999 0)).items.length = 4 :=
  c2_byte_bound_violated
    (1 :: List.replicate 32999999 0) (2 :: List.replicate 32999999 0)
    (3 :: List.replicate 32999999 0) (4 :: List.replicate 49999999 0)
    (by rw [List.length_cons, List.length_replicate])
    (by rw [List.length_cons, List.length_replicate])
    (by rw [List.length_cons, List.length_replicate])
    (by rw [List.length_cons, List.length_replicate])
    (fun h => absurd (congrArg List.length h)
      (by rw [List.length_cons, List.length_replicate]; decide))
    (fun h => by injection h with h1 _; exact absurd h1 (by decide))
    (fun h => by injection h with h1 _; exact absurd h1 (by decide))
    (fun h => by injection h with h1 _; exact absurd h1 (by decide))

/-- C3: the daemon's IPC worker ignores the CLEAR opcode (value 3): it is
not one of the handled opcodes, so the store is left unchanged, and a READ
issued afterwards on the fresh daemon returns the seeded one-entry
sequence rather than an empty one. -/
theorem c3_clear_opcode_ignored :
    (∀ s : SharedState, handle_peer s [MESSAGE_CLEAR] = (s, none)) ∧
    (handle_peer (handle_peer initialState [MESSAGE_CLEAR]).1 [MESSAGE_READ]).2 =
      some [seedItem] ∧
    [seedItem] ≠ ([] : List HistoryItem) :=
  ⟨fun _ => rfl, by decide, by decide⟩

/-- C4 (counterexample): on a fresh daemon a single "text/plain" capture
produces the store id sequence [3548235782, 0] — the seed entry's id
exceeds the first counter-assigned id, so the ids in insertion order are
not strictly increasing. -/
theorem c4_seed_id_not_monotonic :
    ¬ List.Pairwise (fun a b => a < b)
        ((selectionCapture initialState ["text/plain"] 1 [104]).items.map HistoryItem.id) := by
  decide

/-- C4 (amended): from any state whose entry ids are strictly increasing
in store order and all below the id counter, a capture preserves both
properties (the inserted entry takes the current counter value and the
counter advances); the fresh daemon itself violates the precondition
because the seed entry's id 3548235782 is not below the initial counter
value 0. -/
theorem c4_capture_preserves_monotonic_ids :
    ∀ (s : SharedState) (mimes : List String) (time : Nat) (pipeData : List Nat),
      s.next_item_id + 1 < U64_MOD → IdsOk s →
      IdsOk (selectionCapture s mimes time pipeData) := by
  intro s mimes time pipeData hlt hok
  unfold selectionCapture
  cases hc : chooseMime mimes with
  | none => exact hok
  | some mime => exact IdsOk_do_read s time mime pipeData hlt hok

/-- C4 (witness): the invariant-preservation theorem applied at a concrete
well-formed state. -/
theorem c4_capture_preserves_monotonic_ids_witness :
    IdsOk (selectionCapture
      { next_item_id := 5, last_copied_item_id := 0,
        items := [⟨1, "text/plain", [104], 0⟩, ⟨4, "text/plain", [105], 0⟩] }
      ["text/plain"] 2 [7]) :=
  c4_capture_preserves_monotonic_ids
    { next_item_id := 5, last_copied_item_id := 0,
      items := [⟨1, "text/plain", [104], 0⟩, ⟨4, "text/plain", [105], 0⟩] }
    ["text/plain"] 2 [7] (by decide) (by decide)

/-- C5 (counterexample): appending an entry equal to the tail under
(mime, data) leaves the store unmodified but the id counter advances from
7 to 8 — `fetch_add` runs before the dedup check, refuting "the id counter
does not advance". -/
theorem c5_duplicate_consumes_id :
    (do_read_clipboard_into_history
        { next_item_id := 7, last_copied_item_id := 0,
          items := [⟨1, "text/plain", [104], 0⟩] } 9 "text/plain" [104]).items =
      [⟨1, "text/plain", [104], 0⟩] ∧
    (do_read_clipboard_into_history
        { next_item_id := 7, last_copied_item_id := 0,
          items := [⟨1, "text/plain", [104], 0⟩] } 9 "text/plain" [104]).next_item_id ≠ 7 := by
  decide

/-- C5 (amended): when the incoming entry duplicates the tail under
(mime, data) equality, the store and the last-copied marker are unchanged,
but the id counter still advances by one (with u64 wrap) — the id is
consumed before the dedup check. -/
theorem c5_duplicate_of_tail_frame :
    ∀ (s : SharedState) (time : Nat) (mime : String) (pipeData : List Nat),
      tailDuplicate s.items mime (pipeData.take MAX_ENTRY_SIZE) = true →
      (do_read_clipboard_into_history s time mime pipeData).items = s.items ∧
      (do_read_clipboard_into_history s time mime pipeData).last_copied_item_id =
        s.last_copied_item_id ∧
      (do_read_clipboard_into_history s time mime pipeData).next_item_id =
        (s.next_item_id + 1) % U64_MOD := by
  intro s time mime pipeData h
  simp [do_read_clipboard_into_history, h]

/-- C5 (witness): the frame theorem applied at a concrete duplicate-of-tail
input. -/
theorem c5_duplicate_of_tail_frame_witness :
    (do_read_clipboard_into_history
        { next_item_id := 7, last_copied_item_id := 0,
          items := [⟨1, "text/plain", [104], 0⟩] } 9 "text/plain" [104]).items =
      [⟨1, "text/plain", [104], 0⟩] ∧
    (do_read_clipboard_into_history
        { next_item_id := 7, last_copied_item_id := 0,
          items := [⟨1, "text/plain", [104], 0⟩] } 9 "text/plain" [104]).last_copied_item_id =
      0 ∧
    (do_read_clipboard_into_history
        { next_item_id := 7, last_copied_item_id := 0,
          items := [⟨1, "text/plain", [104], 0⟩] } 9 "text/plain" [104]).next_item_id =
      (7 + 1) % U64_MOD :=
  c5_duplicate_of_tail_frame
    { next_item_id := 7, last_copied_item_id := 0, items := [⟨1, "text/plain", [104], 0⟩] }
    9 "text/plain" [104] (by decide)

/-- C6 (counterexample): an offer advertising only "image/jpg" is
abandoned — the code's preference list is ["text/plain", "image/png"],
without "image/jpg", so no MIME is chosen and the whole daemon state is
left untouched, refuting the claim that "image/jpg" is captured. -/
theorem c6_jpg_only_offer_abandoned :
    chooseMime ["image/jpg"] = none ∧
    selectionCapture initialState ["image/jpg"] 5 [1, 2, 3] = initialState := by
  decide

/-- C6 (amended): the capture preference list has exactly two entries —
"text/plain" wins first, then "image/png" — and when neither is present
(including offers advertising only "image/jpg") the offer is abandoned
with the state unchanged. -/
theorem c6_preference_list_two_entries :
    ∀ (s : SharedState) (mimes : List String) (time : Nat) (pipeData : List Nat),
      chooseMime mimes =
        (if mimes.contains "text/plain" = true then some "text/plain"
         else if mimes.contains "image/png" = true then some "image/png" else none) ∧
      (chooseMime mimes = none → selectionCapture s mimes time pipeData = s) := by
  intro s mimes time pipeData
  refine ⟨chooseMime_eq mimes, fun h => ?_⟩
  unfold selectionCapture
  rw [h]

/-- C6 (witness): the amended theorem applied to an offer with no
supported MIME. -/
theorem c6_preference_list_two_entries_witness :
    chooseMime ["text/html"] = none ∧
    selectionCapture initialState ["text/html"] 0 [1] = initialState :=
  ⟨by decide, (c6_preference_list_two_entries initialState ["text/html"] 0 [1]).2 (by decide)⟩

/-- C7: COPY(id) promotion.  If no entry carries the requested id the
state is unchanged; if the entry at position i carries it and no other
position does, the result is exactly the original sequence with that one
entry removed from position i and re-appended at the tail — the relative
order of all other entries is preserved. -/
theorem c7_promote_by_id :
    ∀ (s : SharedState) (id : Nat),
      ((∀ it ∈ s.items, it.id ≠ id) → handle_copy s id = s) ∧
      (∀ (i : Nat) (hi : i < s.items.length),
        (s.items.get ⟨i, hi⟩).id = id →
        (∀ (j : Nat) (hj : j < s.items.length), j ≠ i → (s.items.get ⟨j, hj⟩).id ≠ id) →
        (handle_copy s id).items = s.items.eraseIdx i ++ [s.items.get ⟨i, hi⟩]) := by
  intro s id
  constructor
  · intro h
    have hnone : List.findIdx? (fun item => item.id == id) s.items = none :=
      findIdx?_none_of _ s.items 0 (fun a ha => beq_eq_false_iff_ne.mpr (h a ha))
    unfold handle_copy
    rw [hnone]
  · intro i hi hp hmin
    have hsome : List.findIdx? (fun item => item.id == id) s.items = some i := by
      have := findIdx?_some_of (fun item => item.id == id) s.items 0 i hi
        (by simpa using hp)
        (fun j hj hji => beq_eq_false_iff_ne.mpr (hmin j hj (by omega)))
      simpa using this
    have hget : s.items[i]? = some (s.items.get ⟨i, hi⟩) := by
      rw [List.getElem?_eq_getElem hi]
      simp
    unfold handle_copy
    simp only [hsome, hget]

/-- C7 (witness): promoting id 2 in the three-entry store [1, 2, 3] moves
that entry to the tail. -/
theorem c7_promote_by_id_witness :
    (handle_copy
        { next_item_id := 0, last_copied_item_id := 0,
          items := [⟨1, "a", [0], 0⟩, ⟨2, "b", [0], 0⟩, ⟨3, "c", [0], 0⟩] } 2).items =
      [⟨1, "a", [0], 0⟩, ⟨3, "c", [0], 0⟩, ⟨2, "b", [0], 0⟩] :=
  (c7_promote_by_id
    { next_item_id := 0, last_copied_item_id := 0,
      items := [⟨1, "a", [0], 0⟩, ⟨2, "b", [0], 0⟩, ⟨3, "c", [0], 0⟩] } 2).2
    1 (by decide) (by decide) (by decide)

/-- C8: serializing a snapshot of the store as the READ response (CBOR
array of entry maps with fields id, mime, data, created_time, oldest
first) and deserializing the result yields the original sequence, for
every sequence of wire-well-formed entries. -/
theorem c8_serialize_roundtrip (items : List HistoryItem) (hlen : items.length < 2 ^ 64)
    (hwf : ∀ it ∈ items, ItemWF it) :
    cborDeserializeItems (cborSerializeItems items) = some (items, []) := by
  rw [cborSerializeItems, cborDeserializeItems]
  rw [show (encodeHead 4 items.length ++ (items.map encodeItem).flatten) =
    (encodeHead 4 items.length ++ ((items.map encodeItem).flatten ++ [])) from by simp]
  rw [decodeHead_encodeHead 4 items.length (by omega) hlen]
  dsimp only
  exact decodeItemSeq_encode items hwf []

/-- C8 (witness): the round-trip theorem applied to the seeded store. -/
theorem c8_serialize_roundtrip_witness :
    cborDeserializeItems (cborSerializeItems [seedItem]) = some ([seedItem], []) :=
  c8_serialize_roundtrip [seedItem] (by decide) (by decide)

/-- C9 (counterexample): started while another daemon's socket file is
present (owner tag 1), the daemon removes that file and then binds
successfully (creating its own file, owner tag 2) — bind never fails with
AddressInUse and the first daemon's socket file is removed, refuting the
claim that it is never removed. -/
theorem c9_second_daemon_removes_socket :
    remove_file (some 1) = none ∧
    daemonStartupSocket (some 1) 2 = (some 2, BindOutcome.ok) := by
  decide

/-- C9 (amended): startup unconditionally unlinks whatever file is at the
socket path before binding, so bind always succeeds on the freed path and
a pre-existing socket file owned by an already-running daemon is removed
by the second daemon. -/
theorem c9_startup_unconditionally_unlinks :
    ∀ (file : Option Nat) (self : Nat),
      remove_file file = none ∧ daemonStartupSocket file self = (some self, BindOutcome.ok) :=
  fun _ _ => ⟨rfl, rfl⟩

/-- C10: immediately after startup the store holds exactly the seed entry
with id 3548235782, mime "text/plain", data b"meow" and created_time 0,
and the first READ returns this one-entry sequence. -/
theorem c10_seeded_initial_store :
    initialState.items =
      [{ id := 3548235782, mime := "text/plain", data := [109, 101, 111, 119],
         created_time := 0 }] ∧
    (handle_peer initialState [MESSAGE_READ]).2 = some [seedItem] := by
  decide
